import Mathlib

/-!
Shallow embedding of the ImageEditor filter core
(src/filters/base/{base_filter,conv_filter,static_filter,dynamic_filter}.py).

Modelling conventions:
* A numpy array of rank 3 is an `Image`: three extents and a total sample
  function; entries at indices outside the extents are irrelevant, so every
  equality between images is stated through `Image.EqOn`.
* Samples and kernel weights are rationals (`ℚ`): the code computes in floats
  and wide signed integers after `astype(np.int32)`; the public input samples
  are integers (`ℤ`), coerced exactly into `ℚ` by the int32 widening.
* `astype(image.dtype)` (restoring the original sample type) is an opaque
  parameter `origCast : ℚ → ℚ`; for the 8-bit unsigned public contract it
  maps `[0,255]` into `[0,255]`.
* Constructors that `raise` are modelled with `Except String`.
* The lazily-computed, cached padding of `ConvFilter.apply` is modelled by
  explicit state passing: `applyConv` returns the updated parameter record
  together with the output image.
-/

namespace ImageEditor

/-- A rank-3 raster: extents `H`, `W`, `C` and a total sample function. -/
structure Image where
  H : ℕ
  W : ℕ
  C : ℕ
  data : ℕ → ℕ → ℕ → ℚ

/-- Extensional equality of images: equal extents and equal samples at every
index inside the extents. -/
def Image.EqOn (a b : Image) : Prop :=
  a.H = b.H ∧ a.W = b.W ∧ a.C = b.C ∧
    ∀ i < a.H, ∀ j < a.W, ∀ c < a.C, a.data i j c = b.data i j c

instance (a b : Image) : Decidable (Image.EqOn a b) :=
  inferInstanceAs (Decidable (a.H = b.H ∧ a.W = b.W ∧ a.C = b.C ∧
    ∀ i < a.H, ∀ j < a.W, ∀ c < a.C, a.data i j c = b.data i j c))

/-- `np.clip(x, 0, 255)`. -/
def clip (x : ℚ) : ℚ := min (max x 0) 255

/-- A convolution kernel: a rank-3 numpy array of shape `(kh, kw, kc)`. -/
structure Kernel where
  kh : ℕ
  kw : ℕ
  kc : ℕ
  data : ℕ → ℕ → ℕ → ℚ

/-- Kernel sample after numpy channel broadcasting: a single-channel kernel
(`kc = 1`) is broadcast across all image channels
(`np.broadcast_to` in `StaticFilter._apply_single_filter`, and numpy
broadcasting of `region * kernel` in `DynamicFilter.compute_convolution`). -/
def Kernel.sample (ker : Kernel) (k l c : ℕ) : ℚ :=
  if ker.kc = 1 then ker.data k l 0 else ker.data k l c

/-- The state of a `ConvFilter` instance: geometry parameters, with the pads
`Option`-valued because `__init__` leaves them `None` when no explicit pad is
given (`to be computed later`). -/
structure ConvParams where
  radius_y : ℕ
  radius_x : ℕ
  stride_y : ℕ
  stride_x : ℕ
  pad_y : Option ℕ
  pad_x : Option ℕ
  pad_val : ℚ
  bias : ℚ
  keep_dims_with_pad : Bool

/-- `self.kernel_height = 2 * self.radius_y + 1`. -/
def ConvParams.kernel_height (p : ConvParams) : ℕ := 2 * p.radius_y + 1

/-- `self.kernel_width = 2 * self.radius_x + 1`. -/
def ConvParams.kernel_width (p : ConvParams) : ℕ := 2 * p.radius_x + 1

/-- `ConvFilter.pad_image`: constant padding on the row and column axes only,
never on the channel axis. -/
def padImage (py px : ℕ) (v : ℚ) (img : Image) : Image :=
  { H := img.H + 2 * py
    W := img.W + 2 * px
    C := img.C
    data := fun i j c =>
      if py ≤ i ∧ i < py + img.H ∧ px ≤ j ∧ j < px + img.W then
        img.data (i - py) (j - px) c
      else v }

/-- `ConvFilter._validate_params`: kernel radius and stride must be pairs of
positive integers.  (The explicit pad entries are naturals here so the
non-negativity check always passes, and `pad_val`/`bias` are rationals so the
numeric-type check always passes.) -/
def validateParams (kernel_radius stride : ℕ × ℕ) : Except String Unit :=
  if ¬ (0 < kernel_radius.1 ∧ 0 < kernel_radius.2) then
    .error "kernel_radius must be a tuple of two positive ints"
  else if ¬ (0 < stride.1 ∧ 0 < stride.2) then
    .error "stride must be a tuple of two positive ints"
  else .ok ()

/-- `ConvFilter.__init__`: validate, store geometry, and when an explicit pad
is supplied together with `keep_dims` emit a (non-fatal) warning.  The
returned `Bool` records whether the warning fired. -/
def ConvFilter.init (kernel_radius stride : ℕ × ℕ) (pad : Option (ℕ × ℕ))
    (pad_val bias : ℚ) (keep_dims : Bool) : Except String (ConvParams × Bool) :=
  match validateParams kernel_radius stride with
  | .error e => .error e
  | .ok _ =>
    .ok ({ radius_y := kernel_radius.1
           radius_x := kernel_radius.2
           stride_y := stride.1
           stride_x := stride.2
           pad_y := pad.map Prod.fst
           pad_x := pad.map Prod.snd
           pad_val := pad_val
           bias := bias
           keep_dims_with_pad := keep_dims },
         pad.isSome && keep_dims)

/-- `ConvFilter.apply`: on the first call with no explicit pad, compute and
cache the pad (the `keep_dims` formula with floor division, else zero), then
pad and delegate to the convolution strategy `f`.  The updated parameter
record is returned alongside the output, modelling the mutation of `self`. -/
def ConvFilter.applyConv (f : ConvParams → Image → Image) (p : ConvParams)
    (img : Image) : ConvParams × Image :=
  let p' :=
    if p.pad_y = none ∧ p.pad_x = none then
      if p.keep_dims_with_pad then
        { p with
            pad_y := some (((p.stride_y - 1) * img.H + p.kernel_height - p.stride_y) / 2)
            pad_x := some (((p.stride_x - 1) * img.W + p.kernel_width - p.stride_x) / 2) }
      else { p with pad_y := some 0, pad_x := some 0 }
    else p
  (p', f p' (padImage (p'.pad_y.getD 0) (p'.pad_x.getD 0) p'.pad_val img))

/-- Length of `sliding_window_view(image, k, axis)` (`extent - ksize + 1`
positions) after strided slicing `[::stride]` (ceiling division). -/
def windowCount (extent ksize stride : ℕ) : ℕ :=
  (extent - ksize + 1 + stride - 1) / stride

/-- `StaticFilter._apply_single_filter`: all kernel-sized windows at the
configured stride, `einsum` reduction against the (channel-broadcast) kernel,
plus bias, clipped to `[0,255]`. -/
def StaticFilter.applySingleFilter (p : ConvParams) (ker : Kernel)
    (image : Image) : Image :=
  { H := windowCount image.H p.kernel_height p.stride_y
    W := windowCount image.W p.kernel_width p.stride_x
    C := image.C
    data := fun u v c =>
      clip ((∑ k ∈ Finset.range p.kernel_height, ∑ l ∈ Finset.range p.kernel_width,
          image.data (u * p.stride_y + k) (v * p.stride_x + l) c * ker.sample k l c)
        + p.bias) }

/-- `StaticFilter.convolve`: apply every registered kernel in sequence, the
output of kernel `i` feeding kernel `i+1`. -/
def StaticFilter.convolve (p : ConvParams) (kernels : List Kernel)
    (image : Image) : Image :=
  kernels.foldl (fun acc k => StaticFilter.applySingleFilter p k acc) image

/-- `checkKernel`: the per-kernel body of `StaticFilter._validate_kernels`:
the kernel's spatial shape must match the first kernel's, and its channel
count must be 1 or 3. -/
def checkKernel (eh ew : ℕ) (k : Kernel) : Except String Unit :=
  if k.kh = eh ∧ k.kw = ew then
    if k.kc = 1 ∨ k.kc = 3 then .ok ()
    else .error "Unsupported kernel channel count"
  else .error "Kernel shape does not match expected"

/-- The validation loop of `StaticFilter._validate_kernels` over all kernels. -/
def checkKernels (eh ew : ℕ) : List Kernel → Except String Unit
  | [] => .ok ()
  | k :: rest =>
    match checkKernel eh ew k with
    | .error e => .error e
    | .ok _ => checkKernels eh ew rest

/-- `StaticFilter._validate_kernels`: at least one kernel, the first kernel's
spatial extents both odd, then every kernel checked against the first. -/
def StaticFilter.validateKernels : List Kernel → Except String Unit
  | [] => .error "At least one valid 3D kernel is required"
  | first :: rest =>
    if first.kh % 2 = 0 ∨ first.kw % 2 = 0 then
      .error "Kernel must have odd height and width"
    else checkKernels first.kh first.kw (first :: rest)

/-- A constructed static filter: its parameter record and its kernels. -/
structure StaticFilter where
  params : ConvParams
  kernels : List Kernel

/-- `StaticFilter.__init__`: validate the kernels, infer
`expected_radius = (kh // 2, kw // 2)` from the first kernel, reject an
explicit `kernel_radius` that disagrees, then run `ConvFilter.__init__`. -/
def StaticFilter.init (kernels : List Kernel) (kernel_radius : Option (ℕ × ℕ))
    (stride : ℕ × ℕ) (pad : Option (ℕ × ℕ)) (pad_val bias : ℚ)
    (keep_dims : Bool) : Except String (StaticFilter × Bool) :=
  match StaticFilter.validateKernels kernels with
  | .error e => .error e
  | .ok _ =>
    match kernels with
    | [] => .error "At least one valid 3D kernel is required"
    | first :: rest =>
      if kernel_radius.getD (first.kh / 2, first.kw / 2) ≠ (first.kh / 2, first.kw / 2) then
        .error "Provided kernel_radius does not match expected radius"
      else
        match ConvFilter.init (kernel_radius.getD (first.kh / 2, first.kw / 2))
            stride pad pad_val bias keep_dims with
        | .error e => .error e
        | .ok (p, warned) => .ok (⟨p, first :: rest⟩, warned)

/-- One full `apply` call of a static filter: pad resolution plus the
sequential kernel convolution. -/
def staticApply (p : ConvParams) (kernels : List Kernel) (img : Image) :
    ConvParams × Image :=
  ConvFilter.applyConv (fun q im => StaticFilter.convolve q kernels im) p img

/-- The neighborhood handed to `apply_region`:
`image[cy - ry : cy + ry + 1, cx - rx : cx + rx + 1, :]` with
`cy = y * stride_y + radius_y` and `cx = x * stride_x + radius_x`. -/
def DynamicFilter.region (p : ConvParams) (image : Image) (y x : ℕ) : Image :=
  { H := p.kernel_height
    W := p.kernel_width
    C := image.C
    data := fun k l c =>
      image.data (y * p.stride_y + p.radius_y - p.radius_y + k)
        (x * p.stride_x + p.radius_x - p.radius_x + l) c }

/-- `DynamicFilter.compute_convolution`:
`np.sum(region * kernel, axis=(0, 1)) + self.bias`, one value per channel. -/
def DynamicFilter.computeConvolution (p : ConvParams) (region : Image)
    (ker : Kernel) : ℕ → ℚ :=
  fun c =>
    (∑ k ∈ Finset.range region.H, ∑ l ∈ Finset.range region.W,
        region.data k l c * ker.sample k l c) + p.bias

/-- `DynamicFilter.convolve`: for every output position, extract the region,
invoke the caller-supplied region function, clip to `[0,255]`, store. -/
def DynamicFilter.convolve (p : ConvParams)
    (apply_region : Image → ℕ → ℕ → (ℕ → ℚ)) (image : Image) : Image :=
  { H := (image.H - p.kernel_height) / p.stride_y + 1
    W := (image.W - p.kernel_width) / p.stride_x + 1
    C := image.C
    data := fun y x c =>
      clip (apply_region (DynamicFilter.region p image y x) y x c) }

/-- A numpy array handed to `apply_filter`: rank 2, rank 3, or any other
rank (only the offending rank is recorded).  Public samples are integers. -/
inductive NpImage where
  | rank2 (H W : ℕ) (data : ℕ → ℕ → ℤ)
  | rank3 (H W C : ℕ) (data : ℕ → ℕ → ℕ → ℤ)
  | badRank (n : ℕ)

/-- Rank-2 promotion `image[:, :, np.newaxis]` followed by
`astype(np.int32)` (exact on integer samples). -/
def promote2 (H W : ℕ) (d : ℕ → ℕ → ℤ) : Image :=
  ⟨H, W, 1, fun i j _ => (d i j : ℚ)⟩

/-- Rank-3 input after `astype(np.int32)`. -/
def promote3 (H W C : ℕ) (d : ℕ → ℕ → ℕ → ℤ) : Image :=
  ⟨H, W, C, fun i j c => (d i j c : ℚ)⟩

/-- The value returned by `apply_filter`: a rank-2 array still in the widened
internal numeric domain (the squeezed branch), a rank-3 array cast back to
the input's dtype, or the `ValueError` raised on unsupported rank. -/
inductive NpResult where
  | rank2Arr (H W : ℕ) (data : ℕ → ℕ → ℚ)
  | rank3Arr (H W C : ℕ) (data : ℕ → ℕ → ℕ → ℚ)
  | shapeError

/-- numpy `ndim` of the result (0 for the error case). -/
def NpResult.ndim : NpResult → ℕ
  | .rank2Arr _ _ _ => 2
  | .rank3Arr _ _ _ _ => 3
  | .shapeError => 0

/-- Sample accessor for a rank-2 result (0 otherwise). -/
def NpResult.sample2 : NpResult → ℕ → ℕ → ℚ
  | .rank2Arr _ _ d, i, j => d i j
  | _, _, _ => 0

/-- Every in-extent sample of the result lies in `[0, 255]`. -/
def NpResult.inRange : NpResult → Prop
  | .rank2Arr H W d => ∀ i < H, ∀ j < W, 0 ≤ d i j ∧ d i j ≤ 255
  | .rank3Arr H W C d => ∀ i < H, ∀ j < W, ∀ c < C, 0 ≤ d i j c ∧ d i j c ≤ 255
  | .shapeError => True

instance (r : NpResult) : Decidable r.inRange := by
  cases r with
  | rank2Arr H W d =>
    exact inferInstanceAs (Decidable (∀ i < H, ∀ j < W, 0 ≤ d i j ∧ d i j ≤ 255))
  | rank3Arr H W C d =>
    exact inferInstanceAs
      (Decidable (∀ i < H, ∀ j < W, ∀ c < C, 0 ≤ d i j c ∧ d i j c ≤ 255))
  | shapeError => exact inferInstanceAs (Decidable True)

/-- The tail of `BaseFilter.apply_filter` after rank normalisation: run the
transform, clip to `[0,255]`, then either squeeze a channel-1 result to rank
2 (without any dtype cast) or restore the original dtype via `origCast`. -/
def applyCore (applyF : Image → Image) (origCast : ℚ → ℚ) (img : Image) :
    NpResult :=
  let result := applyF img
  if result.C = 1 then
    .rank2Arr result.H result.W (fun i j => clip (result.data i j 0))
  else
    .rank3Arr result.H result.W result.C
      (fun i j c => origCast (clip (result.data i j c)))

/-- `BaseFilter.apply_filter`: rank-2 input gains a channel axis, rank
outside `{2, 3}` raises `ValueError`, then `applyCore`. -/
def BaseFilter.applyFilter (applyF : Image → Image) (origCast : ℚ → ℚ) :
    NpImage → NpResult
  | .rank2 H W d => applyCore applyF origCast (promote2 H W d)
  | .rank3 H W C d => applyCore applyF origCast (promote3 H W C d)
  | .badRank _ => .shapeError

/-! Concrete objects used by witnesses and counterexamples. -/

/-- A constant image. -/
def constImg (H W C : ℕ) (v : ℚ) : Image := ⟨H, W, C, fun _ _ _ => v⟩

/-- The 10 by 10 single-channel image of the spec's keep-dims scenario. -/
def img10x10 : Image := constImg 10 10 1 100

/-- A 3 by 3 single-channel kernel of uniform weight 1. -/
def onesKer3 : Kernel := ⟨3, 3, 1, fun _ _ _ => 1⟩

/-- A 3 by 3 single-channel kernel with centre weight 1 and 0 elsewhere. -/
def deltaKer : Kernel := ⟨3, 3, 1, fun k l _ => if k = 1 ∧ l = 1 then 1 else 0⟩

/-- A 3 by 3 single-channel kernel with centre weight 1/2 and 0 elsewhere. -/
def halfDeltaKer : Kernel :=
  ⟨3, 3, 1, fun k l _ => if k = 1 ∧ l = 1 then 1 / 2 else 0⟩

/-- A 1 by 1 single-channel kernel of value 1 (the spec's identity kernel). -/
def ker1x1 : Kernel := ⟨1, 1, 1, fun _ _ _ => 1⟩

/-- A kernel of shape `(2, 3, 1)`: even row extent (spec scenario). -/
def evenKer : Kernel := ⟨2, 3, 1, fun _ _ _ => 1⟩

/-- Parameters of the keep-dims scenario: radius `(1,1)`, stride `(2,2)`,
no explicit pad, keep-dims requested. -/
def pKeep10 : ConvParams := ⟨1, 1, 2, 2, none, none, 0, 0, true⟩

/-- Radius `(1,1)`, stride `(1,1)`, explicit pad `(1,1)`, zero pad value and
bias. -/
def pDelta : ConvParams := ⟨1, 1, 1, 1, some 1, some 1, 0, 0, false⟩

/-- `astype` to an integer dtype: truncation toward zero. -/
def truncCast (x : ℚ) : ℚ := ((Int.tdiv x.num (x.den : ℤ) : ℤ) : ℚ)

/-- The transform of a static filter with the 1/2-centre kernel and explicit
pad `(1,1)`: output extents equal input extents, every sample halved. -/
def halfApply : Image → Image := fun im => (staticApply pDelta [halfDeltaKer] im).2

/-! Helper lemmas. -/

lemma clip_nonneg (x : ℚ) : 0 ≤ clip x :=
  le_min (le_max_right x 0) (by norm_num)

lemma clip_le (x : ℚ) : clip x ≤ 255 := min_le_right _ _

lemma clip_eq_self {x : ℚ} (h0 : 0 ≤ x) (h255 : x ≤ 255) : clip x = x := by
  unfold clip
  rw [max_eq_left h0, min_eq_left h255]

lemma applyCore_inRange (applyF : Image → Image) (origCast : ℚ → ℚ)
    (hcast : ∀ x : ℚ, 0 ≤ x → x ≤ 255 → 0 ≤ origCast x ∧ origCast x ≤ 255)
    (img : Image) : (applyCore applyF origCast img).inRange := by
  unfold applyCore
  by_cases hC : (applyF img).C = 1
  · rw [if_pos hC]
    intro i _ j _
    exact ⟨clip_nonneg _, clip_le _⟩
  · rw [if_neg hC]
    intro i _ j _ c _
    exact hcast _ (clip_nonneg _) (clip_le _)

/-! Claim theorems. -/

/-- C1: for every input accepted by `apply_filter` and every transform
(elementwise, fixed-kernel, or programmable-region), every sample of the
returned image lies in `[0, 255]`, regardless of input samples, kernel
weights, or bias, provided the input's dtype (8-bit unsigned in the public
contract) maps `[0,255]` into `[0,255]` under `astype`. -/
theorem applyFilter_all_in_range (applyF : Image → Image) (origCast : ℚ → ℚ)
    (hcast : ∀ x : ℚ, 0 ≤ x → x ≤ 255 → 0 ≤ origCast x ∧ origCast x ≤ 255)
    (inp : NpImage) :
    (BaseFilter.applyFilter applyF origCast inp).inRange := by
  cases inp with
  | rank2 H W d => exact applyCore_inRange applyF origCast hcast _
  | rank3 H W C d => exact applyCore_inRange applyF origCast hcast _
  | badRank n => trivial

/-- Witness for C1: a static filter with huge weights on an out-of-range
input still lands in `[0, 255]`. -/
theorem applyFilter_all_in_range_witness :
    (BaseFilter.applyFilter (fun im => (staticApply pDelta [onesKer3] im).2) id
      (.rank2 2 2 (fun _ _ => 300))).inRange :=
  applyFilter_all_in_range _ id (fun _ h0 h255 => ⟨h0, h255⟩) _

/-- C2 (code evidence): with keep-dims requested, no explicit pad, a 3 by 3
kernel and stride 2 on a 10 by 10 image, the computed pad is 5 and the
output extents are 9, not 10: keep-dims does not preserve the extent here. -/
theorem keepDims_even_stride_loses_extent :
    (staticApply pKeep10 [onesKer3] img10x10).2.H = 9 ∧
      (staticApply pKeep10 [onesKer3] img10x10).2.W = 9 := by
  constructor <;> rfl

/-- C4 (counterexample): constructing a Fixed-Kernel filter from the single
1 by 1 kernel of value 1, zero bias, zero pad, fails at construction: the
inferred kernel radius `(0, 0)` is rejected by the positivity validation, so
the claimed identity convolution can never run. -/
theorem one_by_one_kernel_rejected :
    StaticFilter.init [ker1x1] none (1, 1) (some (0, 0)) 0 0 false
      = .error "kernel_radius must be a tuple of two positive ints" := rfl

/-- C4 (amended): the smallest admissible identity configuration: a 3 by 3
kernel with centre 1 and 0 elsewhere, zero bias, stride 1 and explicit pad
`(1, 1)` reproduces every image with positive extents and samples in
`[0, 255]` exactly. -/
theorem delta_kernel_is_identity (img : Image)
    (hH : 0 < img.H) (hW : 0 < img.W)
    (hrange : ∀ i < img.H, ∀ j < img.W, ∀ c < img.C,
        0 ≤ img.data i j c ∧ img.data i j c ≤ 255) :
    ((staticApply pDelta [deltaKer] img).2).EqOn img := by
  have hred : (staticApply pDelta [deltaKer] img).2
      = StaticFilter.applySingleFilter pDelta deltaKer (padImage 1 1 0 img) := rfl
  rw [hred]
  have hHeq : (StaticFilter.applySingleFilter pDelta deltaKer
      (padImage 1 1 0 img)).H = img.H := by
    show windowCount (img.H + 2 * 1) (2 * 1 + 1) 1 = img.H
    unfold windowCount
    omega
  have hWeq : (StaticFilter.applySingleFilter pDelta deltaKer
      (padImage 1 1 0 img)).W = img.W := by
    show windowCount (img.W + 2 * 1) (2 * 1 + 1) 1 = img.W
    unfold windowCount
    omega
  refine ⟨hHeq, hWeq, rfl, ?_⟩
  intro i hi j hj c hc
  have hi' : i < img.H := by rwa [hHeq] at hi
  have hj' : j < img.W := by rwa [hWeq] at hj
  have hb := hrange i hi' j hj' c hc
  show clip ((∑ k ∈ Finset.range 3, ∑ l ∈ Finset.range 3,
      (padImage 1 1 0 img).data (i * 1 + k) (j * 1 + l) c * deltaKer.sample k l c)
        + (0 : ℚ)) = img.data i j c
  have hpad : (padImage 1 1 0 img).data (i + 1) (j + 1) c = img.data i j c := by
    show (if 1 ≤ i + 1 ∧ i + 1 < 1 + img.H ∧ 1 ≤ j + 1 ∧ j + 1 < 1 + img.W then
        img.data (i + 1 - 1) (j + 1 - 1) c else 0) = img.data i j c
    rw [if_pos (by omega)]
    simp
  have hsum : (∑ k ∈ Finset.range 3, ∑ l ∈ Finset.range 3,
      (padImage 1 1 0 img).data (i * 1 + k) (j * 1 + l) c * deltaKer.sample k l c)
        = img.data i j c := by
    simp only [Finset.sum_range_succ, Finset.sum_range_zero, Kernel.sample, deltaKer]
    norm_num
    exact hpad
  rw [hsum, add_zero, clip_eq_self hb.1 hb.2]

/-- Witness for the amended C4 on a concrete 2 by 2 image. -/
theorem delta_kernel_is_identity_witness :
    ((staticApply pDelta [deltaKer] (constImg 2 2 1 100)).2).EqOn
      (constImg 2 2 1 100) :=
  delta_kernel_is_identity (constImg 2 2 1 100) (by decide) (by decide)
    (by intro i _ j _ c _; constructor <;> norm_num [constImg])

/-- Helper: an `apply` call on an instance whose pad is already assigned
leaves the parameters unchanged and pads with the cached values. -/
lemma applyConv_pad_some (f : ConvParams → Image → Image) (q : ConvParams)
    (img : Image) (a : ℕ) (ha : q.pad_y = some a) :
    ConvFilter.applyConv f q img
      = (q, f q (padImage (q.pad_y.getD 0) (q.pad_x.getD 0) q.pad_val img)) := by
  simp [ConvFilter.applyConv, ha]

/-- C7: on the first `apply` call with no explicit pad, the computed pad is
`((stride - 1) * extent + kernel_size - stride) / 2` per axis (integer
division) when keep-dims is requested and 0 otherwise; the computed pad is
cached, and every later call reuses it, leaving the parameters unchanged. -/
theorem auto_pad_policy (f : ConvParams → Image → Image) (p : ConvParams)
    (img : Image) (hy : p.pad_y = none) (hx : p.pad_x = none) :
    (p.keep_dims_with_pad = true →
      (ConvFilter.applyConv f p img).1.pad_y
          = some (((p.stride_y - 1) * img.H + p.kernel_height - p.stride_y) / 2)
        ∧ (ConvFilter.applyConv f p img).1.pad_x
          = some (((p.stride_x - 1) * img.W + p.kernel_width - p.stride_x) / 2))
    ∧ (p.keep_dims_with_pad = false →
        (ConvFilter.applyConv f p img).1.pad_y = some 0
        ∧ (ConvFilter.applyConv f p img).1.pad_x = some 0)
    ∧ (∀ img2 : Image,
        (ConvFilter.applyConv f (ConvFilter.applyConv f p img).1 img2).1
            = (ConvFilter.applyConv f p img).1
        ∧ (ConvFilter.applyConv f (ConvFilter.applyConv f p img).1 img2).2
            = f (ConvFilter.applyConv f p img).1
                (padImage ((ConvFilter.applyConv f p img).1.pad_y.getD 0)
                  ((ConvFilter.applyConv f p img).1.pad_x.getD 0)
                  (ConvFilter.applyConv f p img).1.pad_val img2)) := by
  cases hkd : p.keep_dims_with_pad with
  | true =>
    have h1 : (ConvFilter.applyConv f p img).1
        = { p with
              pad_y := some (((p.stride_y - 1) * img.H + p.kernel_height - p.stride_y) / 2)
              pad_x := some (((p.stride_x - 1) * img.W + p.kernel_width - p.stride_x) / 2) } := by
      simp [ConvFilter.applyConv, hy, hx, hkd]
    refine ⟨fun _ => ?_, fun hfalse => ?_, fun img2 => ?_⟩
    · rw [h1]
      exact ⟨rfl, rfl⟩
    · cases hfalse
    · rw [h1, applyConv_pad_some f _ img2 _ rfl]
      exact ⟨rfl, rfl⟩
  | false =>
    have h1 : (ConvFilter.applyConv f p img).1
        = { p with pad_y := some 0, pad_x := some 0 } := by
      simp [ConvFilter.applyConv, hy, hx, hkd]
    refine ⟨fun htrue => ?_, fun _ => ?_, fun img2 => ?_⟩
    · cases htrue
    · rw [h1]
      exact ⟨rfl, rfl⟩
    · rw [h1, applyConv_pad_some f _ img2 _ rfl]
      exact ⟨rfl, rfl⟩

/-- The static convolution strategy with one uniform 3 by 3 kernel. -/
def convOnes : ConvParams → Image → Image :=
  fun q im => StaticFilter.convolve q [onesKer3] im

/-- Witness for C7: the spec scenario: 10 by 10 image, stride 2, 3 by 3
kernel, keep-dims: the computed pad is 5 on both axes, and a later call
leaves the cached parameters unchanged. -/
theorem auto_pad_policy_witness :
    ((ConvFilter.applyConv convOnes pKeep10 img10x10).1.pad_y = some 5
      ∧ (ConvFilter.applyConv convOnes pKeep10 img10x10).1.pad_x = some 5)
    ∧ ∀ img2 : Image,
        (ConvFilter.applyConv convOnes
            (ConvFilter.applyConv convOnes pKeep10 img10x10).1 img2).1
          = (ConvFilter.applyConv convOnes pKeep10 img10x10).1 := by
  have h := auto_pad_policy convOnes pKeep10 img10x10 rfl rfl
  exact ⟨h.1 rfl, fun img2 => (h.2.2 img2).1⟩

/-- C9: supplying an explicit pad together with a keep-dims request
constructs successfully with the non-fatal warning, the explicit pad is the
pad used by every `apply` call, and the keep-dims flag has no effect on the
output. -/
theorem explicit_pad_wins (kr stride padv : ℕ × ℕ) (pv b : ℚ)
    (h1 : 0 < kr.1) (h2 : 0 < kr.2) (h3 : 0 < stride.1) (h4 : 0 < stride.2) :
    ∃ p : ConvParams,
      ConvFilter.init kr stride (some padv) pv b true = .ok (p, true)
      ∧ p.pad_y = some padv.1 ∧ p.pad_x = some padv.2
      ∧ p.keep_dims_with_pad = true
      ∧ (∀ (f : ConvParams → Image → Image) (img : Image),
          ConvFilter.applyConv f p img
            = (p, f p (padImage padv.1 padv.2 pv img)))
      ∧ (∀ (kernels : List Kernel) (img : Image),
          (staticApply p kernels img).2
            = (staticApply { p with keep_dims_with_pad := false } kernels img).2) := by
  have hv : validateParams kr stride = .ok () := by
    unfold validateParams
    rw [if_neg (not_not_intro ⟨h1, h2⟩), if_neg (not_not_intro ⟨h3, h4⟩)]
  refine ⟨⟨kr.1, kr.2, stride.1, stride.2, some padv.1, some padv.2, pv, b, true⟩,
      ?_, rfl, rfl, rfl, ?_, ?_⟩
  · unfold ConvFilter.init
    rw [hv]
    rfl
  · intro f img
    exact applyConv_pad_some f _ img padv.1 rfl
  · intro kernels img
    rfl

/-- Witness for C9 with radius `(1,1)`, stride `(1,1)`, explicit pad `(2,3)`. -/
theorem explicit_pad_wins_witness :
    ∃ p : ConvParams,
      ConvFilter.init (1, 1) (1, 1) (some (2, 3)) 0 0 true = .ok (p, true)
      ∧ p.pad_y = some 2 ∧ p.pad_x = some 3
      ∧ p.keep_dims_with_pad = true
      ∧ (∀ (f : ConvParams → Image → Image) (img : Image),
          ConvFilter.applyConv f p img = (p, f p (padImage 2 3 0 img)))
      ∧ (∀ (kernels : List Kernel) (img : Image),
          (staticApply p kernels img).2
            = (staticApply { p with keep_dims_with_pad := false } kernels img).2) :=
  explicit_pad_wins (1, 1) (1, 1) (2, 3) 0 0 (by decide) (by decide) (by decide)
    (by decide)

/-- C3 (counterexample): a rank-3 single-channel input (1 by 1 by 1, value
7) through a static filter with the 1/2-centre kernel comes back with rank
2, not the input's rank 3, and carries the un-cast widened value 7/2 even
under an integer-dtype cast: both the rank-match and the dtype-restoration
parts of the claim fail. -/
theorem rank3_single_channel_squeezed :
    (BaseFilter.applyFilter halfApply truncCast
        (.rank3 1 1 1 (fun _ _ _ => 7))).ndim = 2
    ∧ (BaseFilter.applyFilter halfApply truncCast
        (.rank3 1 1 1 (fun _ _ _ => 7))).sample2 0 0 = 7 / 2 := by
  constructor
  · rfl
  · show clip ((StaticFilter.applySingleFilter pDelta halfDeltaKer
        (padImage 1 1 0 (promote3 1 1 1 (fun _ _ _ => 7)))).data 0 0 0) = 7 / 2
    simp only [StaticFilter.applySingleFilter, padImage, promote3, Kernel.sample,
      halfDeltaKer, pDelta, ConvParams.kernel_height, ConvParams.kernel_width]
    norm_num [Finset.sum_range_succ, clip]

/-- C3 (amended): unsupported ranks raise the shape error; a rank-2 input
whose transform result keeps one channel comes back with rank 2; a rank-3
input whose result has more than one channel comes back with rank 3, its
channel count that of the result, and its samples cast to the original
dtype; but a rank-3 input whose result has channel extent 1 is squeezed
back to rank 2 instead of matching the input's rank. -/
theorem applyFilter_shape_contract (applyF : Image → Image) (origCast : ℚ → ℚ) :
    (∀ n : ℕ,
        BaseFilter.applyFilter applyF origCast (.badRank n) = .shapeError)
    ∧ (∀ (H W : ℕ) (d : ℕ → ℕ → ℤ), (applyF (promote2 H W d)).C = 1 →
        (BaseFilter.applyFilter applyF origCast (.rank2 H W d)).ndim = 2)
    ∧ (∀ (H W C : ℕ) (d : ℕ → ℕ → ℕ → ℤ), (applyF (promote3 H W C d)).C = 1 →
        (BaseFilter.applyFilter applyF origCast (.rank3 H W C d)).ndim = 2)
    ∧ (∀ (H W C : ℕ) (d : ℕ → ℕ → ℕ → ℤ), (applyF (promote3 H W C d)).C ≠ 1 →
        BaseFilter.applyFilter applyF origCast (.rank3 H W C d)
          = .rank3Arr (applyF (promote3 H W C d)).H (applyF (promote3 H W C d)).W
              (applyF (promote3 H W C d)).C
              (fun i j c =>
                origCast (clip ((applyF (promote3 H W C d)).data i j c)))) := by
  refine ⟨fun n => rfl, fun H W d hC => ?_, fun H W C d hC => ?_,
      fun H W C d hC => ?_⟩
  · show (applyCore applyF origCast (promote2 H W d)).ndim = 2
    simp [applyCore, hC, NpResult.ndim]
  · show (applyCore applyF origCast (promote3 H W C d)).ndim = 2
    simp [applyCore, hC, NpResult.ndim]
  · show applyCore applyF origCast (promote3 H W C d) = _
    simp [applyCore, hC]

/-- Witness for the amended C3, discharging each branch hypothesis on the
1/2-centre static filter. -/
theorem applyFilter_shape_contract_witness :
    BaseFilter.applyFilter halfApply truncCast (.badRank 4) = .shapeError
    ∧ (BaseFilter.applyFilter halfApply truncCast
        (.rank2 1 1 (fun _ _ => 7))).ndim = 2
    ∧ (BaseFilter.applyFilter halfApply truncCast
        (.rank3 1 1 1 (fun _ _ _ => 7))).ndim = 2
    ∧ BaseFilter.applyFilter halfApply truncCast (.rank3 1 1 3 (fun _ _ _ => 7))
        = .rank3Arr (halfApply (promote3 1 1 3 (fun _ _ _ => 7))).H
            (halfApply (promote3 1 1 3 (fun _ _ _ => 7))).W
            (halfApply (promote3 1 1 3 (fun _ _ _ => 7))).C
            (fun i j c =>
              truncCast (clip
                ((halfApply (promote3 1 1 3 (fun _ _ _ => 7))).data i j c))) := by
  have h := applyFilter_shape_contract halfApply truncCast
  exact ⟨h.1 4, h.2.1 1 1 _ rfl, h.2.2.1 1 1 1 _ rfl, h.2.2.2 1 1 3 _ (by decide)⟩

/-- C10: whenever the transform result has channel extent 1 (a rank-2 input,
or a rank-3 input reduced to one channel), `apply_filter` returns the
squeezed rank-2 array of clipped values from the widened internal domain:
the original-dtype cast is never applied, so the result is independent of
the dtype cast, unlike the multi-channel branch. -/
theorem squeeze_skips_dtype_restore (applyF : Image → Image)
    (origCast origCast' : ℚ → ℚ) :
    (∀ (H W : ℕ) (d : ℕ → ℕ → ℤ), (applyF (promote2 H W d)).C = 1 →
        BaseFilter.applyFilter applyF origCast (.rank2 H W d)
          = .rank2Arr (applyF (promote2 H W d)).H (applyF (promote2 H W d)).W
              (fun i j => clip ((applyF (promote2 H W d)).data i j 0))
        ∧ BaseFilter.applyFilter applyF origCast (.rank2 H W d)
          = BaseFilter.applyFilter applyF origCast' (.rank2 H W d))
    ∧ (∀ (H W C : ℕ) (d : ℕ → ℕ → ℕ → ℤ), (applyF (promote3 H W C d)).C = 1 →
        BaseFilter.applyFilter applyF origCast (.rank3 H W C d)
          = .rank2Arr (applyF (promote3 H W C d)).H (applyF (promote3 H W C d)).W
              (fun i j => clip ((applyF (promote3 H W C d)).data i j 0))
        ∧ BaseFilter.applyFilter applyF origCast (.rank3 H W C d)
          = BaseFilter.applyFilter applyF origCast' (.rank3 H W C d)) := by
  constructor
  · intro H W d hC
    constructor
    · show applyCore applyF origCast (promote2 H W d) = _
      simp [applyCore, hC]
    · show applyCore applyF origCast (promote2 H W d)
          = applyCore applyF origCast' (promote2 H W d)
      simp [applyCore, hC]
  · intro H W C d hC
    constructor
    · show applyCore applyF origCast (promote3 H W C d) = _
      simp [applyCore, hC]
    · show applyCore applyF origCast (promote3 H W C d)
          = applyCore applyF origCast' (promote3 H W C d)
      simp [applyCore, hC]

/-- Witness for C10: integer-truncating cast and identity cast give the same
result on squeezed outputs of the 1/2-centre static filter. -/
theorem squeeze_skips_dtype_restore_witness :
    (BaseFilter.applyFilter halfApply truncCast (.rank2 2 2 (fun _ _ => 9))
        = BaseFilter.applyFilter halfApply id (.rank2 2 2 (fun _ _ => 9)))
    ∧ (BaseFilter.applyFilter halfApply truncCast
          (.rank3 1 1 1 (fun _ _ _ => 9))
        = BaseFilter.applyFilter halfApply id (.rank3 1 1 1 (fun _ _ _ => 9))) := by
  have h := squeeze_skips_dtype_restore halfApply truncCast id
  exact ⟨(h.1 2 2 _ rfl).2, (h.2 1 1 1 _ rfl).2⟩

/-- Helper: the number of strided windows equals the output-extent formula
`(extent - ksize) / stride + 1` whenever the kernel fits in the image. -/
lemma windowCount_eq {H kh s : ℕ} (hs : 0 < s) (hk : kh ≤ H) :
    windowCount H kh s = (H - kh) / s + 1 := by
  unfold windowCount
  have h1 : H - kh + 1 + s - 1 = H - kh + s := by omega
  rw [h1, Nat.add_div_right _ hs]

/-- Helper: every strided window lies fully inside the image. -/
lemma windowCount_mul_le {H kh s u : ℕ} (hs : 0 < s) (hk : kh ≤ H)
    (hu : u < windowCount H kh s) : u * s + kh ≤ H := by
  unfold windowCount at hu
  have h1 : H - kh + 1 + s - 1 = H - kh + s := by omega
  rw [h1] at hu
  have h3 : (u + 1) * s ≤ H - kh + s := (Nat.le_div_iff_mul_le hs).mp hu
  have h4 : u * s + s ≤ H - kh + s := by
    calc u * s + s = (u + 1) * s := by ring
    _ ≤ H - kh + s := h3
  have h5 : u * s ≤ H - kh := Nat.le_of_add_le_add_right h4
  have h6 : u * s + kh ≤ H - kh + kh := Nat.add_le_add_right h5 kh
  rwa [Nat.sub_add_cancel hk] at h6

/-- Helper: convolving an image zero-padded with pad `(0, 0)` agrees with
convolving the image itself (the pad adds no samples and the parameters
differ only in the pad fields, which the kernel step never reads). -/
lemma applySingleFilter_pad_zero (p : ConvParams) (K : Kernel) (x : Image)
    (hsy : 0 < p.stride_y) (hsx : 0 < p.stride_x)
    (hkh : p.kernel_height ≤ x.H) (hkw : p.kernel_width ≤ x.W) :
    (StaticFilter.applySingleFilter p K x).EqOn
      (StaticFilter.applySingleFilter { p with pad_y := some 0, pad_x := some 0 }
        K (padImage 0 0 p.pad_val x)) := by
  refine ⟨rfl, rfl, rfl, ?_⟩
  intro u hu v hv c hc
  have hbu : u * p.stride_y + p.kernel_height ≤ x.H :=
    windowCount_mul_le hsy hkh hu
  have hbv : v * p.stride_x + p.kernel_width ≤ x.W :=
    windowCount_mul_le hsx hkw hv
  show clip ((∑ k ∈ Finset.range p.kernel_height, ∑ l ∈ Finset.range p.kernel_width,
      x.data (u * p.stride_y + k) (v * p.stride_x + l) c * K.sample k l c)
        + p.bias)
    = clip ((∑ k ∈ Finset.range p.kernel_height, ∑ l ∈ Finset.range p.kernel_width,
        (padImage 0 0 p.pad_val x).data (u * p.stride_y + k) (v * p.stride_x + l) c
          * K.sample k l c)
        + p.bias)
  refine congrArg clip (congrArg (· + p.bias) ?_)
  refine Finset.sum_congr rfl fun k hk => Finset.sum_congr rfl fun l hl => ?_
  have hik : u * p.stride_y + k < x.H := by
    have hk' : k < p.kernel_height := Finset.mem_range.mp hk
    calc u * p.stride_y + k < u * p.stride_y + p.kernel_height :=
          Nat.add_lt_add_left hk' _
    _ ≤ x.H := hbu
  have hjl : v * p.stride_x + l < x.W := by
    have hl' : l < p.kernel_width := Finset.mem_range.mp hl
    calc v * p.stride_x + l < v * p.stride_x + p.kernel_width :=
          Nat.add_lt_add_left hl' _
    _ ≤ x.W := hbv
  have hpad : (padImage 0 0 p.pad_val x).data (u * p.stride_y + k)
      (v * p.stride_x + l) c
      = x.data (u * p.stride_y + k) (v * p.stride_x + l) c := by
    show (if 0 ≤ u * p.stride_y + k ∧ u * p.stride_y + k < 0 + x.H
          ∧ 0 ≤ v * p.stride_x + l ∧ v * p.stride_x + l < 0 + x.W then
        x.data (u * p.stride_y + k - 0) (v * p.stride_x + l - 0) c
      else p.pad_val) = x.data (u * p.stride_y + k) (v * p.stride_x + l) c
    rw [if_pos ⟨Nat.zero_le _, by simpa using hik, Nat.zero_le _, by simpa using hjl⟩]
    simp
  rw [hpad]

/-- C5: one Fixed-Kernel Convolver registered with `[K1, K2]` on a padded
image equals applying `K1` (which clips to `[0,255]`), then feeding the
clipped result through a second instance configured with only `K2` and the
same stride and bias but zero pad: chained kernels see the clipped domain
after every individual application. -/
theorem chained_clip_equiv (p : ConvParams) (K1 K2 : Kernel) (img : Image)
    (hsy : 0 < p.stride_y) (hsx : 0 < p.stride_x)
    (hkh : p.kernel_height ≤ (StaticFilter.applySingleFilter p K1 img).H)
    (hkw : p.kernel_width ≤ (StaticFilter.applySingleFilter p K1 img).W) :
    (StaticFilter.convolve p [K1, K2] img).EqOn
      (staticApply { p with pad_y := some 0, pad_x := some 0 } [K2]
        (StaticFilter.applySingleFilter p K1 img)).2 :=
  applySingleFilter_pad_zero p K2 (StaticFilter.applySingleFilter p K1 img)
    hsy hsx hkh hkw

/-- Witness for C5 on a 5 by 5 constant image and two uniform kernels. -/
theorem chained_clip_equiv_witness :
    (StaticFilter.convolve pDelta [onesKer3, onesKer3] (constImg 5 5 1 100)).EqOn
      (staticApply { pDelta with pad_y := some 0, pad_x := some 0 } [onesKer3]
        (StaticFilter.applySingleFilter pDelta onesKer3 (constImg 5 5 1 100))).2 :=
  chained_clip_equiv pDelta onesKer3 onesKer3 (constImg 5 5 1 100)
    (by decide) (by decide) (by decide) (by decide)

/-- C6: a Programmable-Region convolution whose region function recomputes
the `compute_convolution` primitive (window times kernel, summed, plus
bias) produces exactly the Fixed-Kernel single-kernel output for the same
kernel, stride and bias on the same padded image, clipping included. -/
theorem dynamic_conv_matches_static (p : ConvParams) (ker : Kernel)
    (img : Image) (hsy : 0 < p.stride_y) (hsx : 0 < p.stride_x)
    (hkh : p.kernel_height ≤ img.H) (hkw : p.kernel_width ≤ img.W) :
    (DynamicFilter.convolve p
        (fun region _ _ => DynamicFilter.computeConvolution p region ker)
        img).EqOn
      (StaticFilter.applySingleFilter p ker img) := by
  refine ⟨?_, ?_, rfl, ?_⟩
  · show (img.H - p.kernel_height) / p.stride_y + 1
        = windowCount img.H p.kernel_height p.stride_y
    rw [windowCount_eq hsy hkh]
  · show (img.W - p.kernel_width) / p.stride_x + 1
        = windowCount img.W p.kernel_width p.stride_x
    rw [windowCount_eq hsx hkw]
  · intro y hy x hx c hc
    show clip (DynamicFilter.computeConvolution p
        (DynamicFilter.region p img y x) ker c)
      = clip ((∑ k ∈ Finset.range p.kernel_height,
          ∑ l ∈ Finset.range p.kernel_width,
            img.data (y * p.stride_y + k) (x * p.stride_x + l) c
              * ker.sample k l c) + p.bias)
    unfold DynamicFilter.computeConvolution DynamicFilter.region
    simp [Nat.add_sub_cancel]

/-- Witness for C6 on a 3 by 3 constant image with the uniform kernel. -/
theorem dynamic_conv_matches_static_witness :
    (DynamicFilter.convolve pDelta
        (fun region _ _ => DynamicFilter.computeConvolution pDelta region onesKer3)
        (constImg 3 3 1 10)).EqOn
      (StaticFilter.applySingleFilter pDelta onesKer3 (constImg 3 3 1 10)) :=
  dynamic_conv_matches_static pDelta onesKer3 (constImg 3 3 1 10)
    (by decide) (by decide) (by decide) (by decide)

/-- Helper: inverting a successful per-kernel check. -/
lemma checkKernel_ok {eh ew : ℕ} {k : Kernel}
    (h : checkKernel eh ew k = .ok ()) :
    (k.kh = eh ∧ k.kw = ew) ∧ (k.kc = 1 ∨ k.kc = 3) := by
  unfold checkKernel at h
  split_ifs at h with h1 h2
  exact ⟨h1, h2⟩

/-- Helper: the kernel-validation loop fails whenever some kernel has the
wrong spatial shape or an unsupported channel count. -/
lemma checkKernels_error {eh ew : ℕ} {l : List Kernel}
    (h : ∃ k ∈ l, ¬(k.kh = eh ∧ k.kw = ew) ∨ (k.kc ≠ 1 ∧ k.kc ≠ 3)) :
    ∃ e, checkKernels eh ew l = .error e := by
  induction l with
  | nil =>
    obtain ⟨k, hk, _⟩ := h
    exact absurd hk (List.not_mem_nil k)
  | cons a t ih =>
    cases hcheck : checkKernel eh ew a with
    | error e =>
      refine ⟨e, ?_⟩
      unfold checkKernels
      rw [hcheck]
    | ok u =>
      obtain ⟨k, hk, hbad⟩ := h
      rcases List.mem_cons.mp hk with hka | hkt
      · subst hka
        have hok := checkKernel_ok (by cases u; exact hcheck)
        rcases hbad with hb1 | hb2
        · exact absurd hok.1 hb1
        · rcases hok.2 with h1 | h3
          · exact absurd h1 hb2.1
          · exact absurd h3 hb2.2
      · obtain ⟨e, he⟩ := ih ⟨k, hkt, hbad⟩
        refine ⟨e, ?_⟩
        unfold checkKernels
        rw [hcheck]
        exact he

/-- C8: constructing a Fixed-Kernel filter from a kernel list in which some
kernel has an even row or column extent, or two kernels disagree in
`(rows, cols)`, or some kernel's channel count is neither 1 nor 3, fails
with a kernel-validation error at construction time, before any
convolution runs. -/
theorem bad_kernels_rejected (kernels : List Kernel) (kr : Option (ℕ × ℕ))
    (stride : ℕ × ℕ) (pad : Option (ℕ × ℕ)) (pv b : ℚ) (kd : Bool)
    (h : (∃ k ∈ kernels, k.kh % 2 = 0 ∨ k.kw % 2 = 0)
       ∨ (∃ k1 ∈ kernels, ∃ k2 ∈ kernels, k1.kh ≠ k2.kh ∨ k1.kw ≠ k2.kw)
       ∨ (∃ k ∈ kernels, k.kc ≠ 1 ∧ k.kc ≠ 3)) :
    ∃ e, StaticFilter.init kernels kr stride pad pv b kd = .error e := by
  suffices hv : ∃ e, StaticFilter.validateKernels kernels = .error e by
    obtain ⟨e, he⟩ := hv
    refine ⟨e, ?_⟩
    unfold StaticFilter.init
    rw [he]
  cases kernels with
  | nil => exact ⟨"At least one valid 3D kernel is required", rfl⟩
  | cons first rest =>
    by_cases hodd : first.kh % 2 = 0 ∨ first.kw % 2 = 0
    · refine ⟨"Kernel must have odd height and width", ?_⟩
      show (if first.kh % 2 = 0 ∨ first.kw % 2 = 0 then
          Except.error "Kernel must have odd height and width"
        else checkKernels first.kh first.kw (first :: rest))
        = Except.error "Kernel must have odd height and width"
      rw [if_pos hodd]
    · push_neg at hodd
      have hex : ∃ k ∈ first :: rest,
          ¬(k.kh = first.kh ∧ k.kw = first.kw) ∨ (k.kc ≠ 1 ∧ k.kc ≠ 3) := by
        rcases h with ⟨k, hk, heven⟩ | ⟨k1, hk1, k2, hk2, hne⟩ | ⟨k, hk, hc⟩
        · refine ⟨k, hk, Or.inl ?_⟩
          rintro ⟨e1, e2⟩
          rcases heven with he | he
          · exact hodd.1 (e1 ▸ he)
          · exact hodd.2 (e2 ▸ he)
        · by_cases h12 : k1.kh = first.kh ∧ k1.kw = first.kw
          · refine ⟨k2, hk2, Or.inl ?_⟩
            rintro ⟨e1, e2⟩
            rcases hne with hne | hne
            · exact hne (h12.1.trans e1.symm)
            · exact hne (h12.2.trans e2.symm)
          · exact ⟨k1, hk1, Or.inl h12⟩
        · exact ⟨k, hk, Or.inr hc⟩
      obtain ⟨e, he⟩ := checkKernels_error hex
      refine ⟨e, ?_⟩
      show (if first.kh % 2 = 0 ∨ first.kw % 2 = 0 then
          Except.error "Kernel must have odd height and width"
        else checkKernels first.kh first.kw (first :: rest)) = Except.error e
      rw [if_neg (not_or.mpr ⟨hodd.1, hodd.2⟩)]
      exact he

/-- Witness for C8: the spec scenario kernel of shape `(2, 3, 1)` is
rejected at construction. -/
theorem bad_kernels_rejected_witness :
    ∃ e, StaticFilter.init [evenKer] none (1, 1) none 0 0 false = .error e :=
  bad_kernels_rejected [evenKer] none (1, 1) none 0 0 false
    (Or.inl ⟨evenKer, List.mem_singleton.mpr rfl, Or.inl rfl⟩)

end ImageEditor
